import Mathlib

/-!
A shallow embedding of the library-catalog program (`books.py`, `library.py`).

`books.py` defines the `Book` entity with `to_dict` / `from_dict`;
`library.py` defines the file-backed store operations
(`load_library`, `save_library`, `add_book`, `remove_book`,
`search_books`, `update_book_status`).

The file system is modelled explicitly: an operation takes the current
file state and returns its result together with the (possibly rewritten)
file state.  Python exceptions are modelled with `Except`.
-/

namespace Library

/-- Python exceptions raised by the data layer.  `keyError` models
`KeyError` (missing mapping key in `Book.from_dict`); `valueError`
models `ValueError` (non-numeric `id`/`year` in `int(...)`, and the
invalid-status rejection in `update_book_status`).  The spec groups the
first two as `ValidationError` and calls the status rejection
`InvalidArgument`. -/
inductive Err where
  | keyError
  | valueError
deriving DecidableEq, Repr

/-! ### Python `str` on integers and `int` on strings

`Book.to_dict` stores `str(self.id)` / `str(self.year)` and
`Book.from_dict` reads them back with `int(data["id"])` /
`int(data["year"])`.  We model `str` on an integer as the usual
sign-plus-decimal-digits rendering and `int` on a string as parsing an
optional sign followed by one or more decimal digits (Python's further
tolerance for surrounding whitespace and underscores is not used by the
program and is outside the model). -/

/-- The decimal digit character for `d % 10`-style values. -/
def digitChar (d : Nat) : Char :=
  match d with
  | 0 => '0' | 1 => '1' | 2 => '2' | 3 => '3' | 4 => '4'
  | 5 => '5' | 6 => '6' | 7 => '7' | 8 => '8' | _ => '9'

/-- Numeric value of a decimal digit character, `none` on non-digits. -/
def digit? (c : Char) : Option Nat :=
  if c = '0' then some 0 else if c = '1' then some 1
  else if c = '2' then some 2 else if c = '3' then some 3
  else if c = '4' then some 4 else if c = '5' then some 5
  else if c = '6' then some 6 else if c = '7' then some 7
  else if c = '8' then some 8 else if c = '9' then some 9
  else none

/-- Decimal digits of `n`, most significant first (`"0"` for `0`). -/
def natDigits (n : Nat) : List Char :=
  if _h : n < 10 then [digitChar n]
  else natDigits (n / 10) ++ [digitChar (n % 10)]
termination_by n
decreasing_by exact Nat.div_lt_self (by omega) (by omega)

/-- Left-to-right accumulator pass over decimal digit characters. -/
def parseNatAux : List Char → Nat → Option Nat
  | [], acc => some acc
  | c :: cs, acc =>
    match digit? c with
    | some d => parseNatAux cs (10 * acc + d)
    | none => none

/-- Parse a non-empty all-digit character list. -/
def parseNat? : List Char → Option Nat
  | [] => none
  | c :: cs => parseNatAux (c :: cs) 0

/-- Model of Python `str` on an `int`. -/
def intStr (i : Int) : String :=
  if i < 0 then ⟨'-' :: natDigits i.natAbs⟩ else ⟨natDigits i.toNat⟩

/-- Sign handling of Python `int` on a character list: an optional
leading sign, then decimal digits. -/
def pyIntChars? : List Char → Option Int
  | [] => none
  | c :: cs =>
    if c = '-' then (parseNat? cs).map (fun n => -(Int.ofNat n))
    else if c = '+' then (parseNat? cs).map Int.ofNat
    else (parseNat? (c :: cs)).map Int.ofNat

/-- Model of Python `int` on a string: optional sign, then decimal
digits; `none` models a raised `ValueError`. -/
def pyInt? (s : String) : Option Int :=
  pyIntChars? s.data

/-! ### The `Book` entity (`books.py`) -/

/-- `Book.__init__` fields (`books.py` lines 27-41).  In the source the
status parameter defaults to the string "в наличии" (available); the
other enum value is "выдана" (checked out). -/
structure Book where
  id : Int
  title : String
  author : String
  year : Int
  status : String
deriving DecidableEq, Repr

/-- A string-keyed, string-valued mapping (Python `Dict[str, str]`),
modelled as an association list looked up by first match. -/
abbrev RecordMap := List (String × String)

/-- `data[k]` on a mapping: the value, or a raised `KeyError`. -/
def getKey (d : RecordMap) (k : String) : Except Err String :=
  match d.lookup k with
  | some v => Except.ok v
  | none => Except.error Err.keyError

/-- `int(v)` on a mapping value: the integer, or a raised `ValueError`. -/
def pyIntE (v : String) : Except Err Int :=
  match pyInt? v with
  | some n => Except.ok n
  | none => Except.error Err.valueError

/-- `Book.to_dict` (`books.py` lines 43-55): all five fields under
string keys, with `id` and `year` passed through `str(...)`. -/
def Book.to_dict (b : Book) : RecordMap :=
  [("id", intStr b.id), ("title", b.title), ("author", b.author),
   ("year", intStr b.year), ("status", b.status)]

/-- `Book.from_dict` (`books.py` lines 57-71): looks up the five keys
(raising `KeyError` when one is absent) and converts `id` and `year`
with `int(...)` (raising `ValueError` on failure), in the source's
left-to-right evaluation order. -/
def Book.from_dict (d : RecordMap) : Except Err Book := do
  let i ← getKey d "id" >>= pyIntE
  let t ← getKey d "title"
  let a ← getKey d "author"
  let y ← getKey d "year" >>= pyIntE
  let s ← getKey d "status"
  return { id := i, title := t, author := a, year := y, status := s }

/-! ### The library store (`library.py`)

The contents of the path the store operates on, as far as the program
can observe them: the file may be absent (`open` raises
`FileNotFoundError`), hold text that is not valid JSON (`json.load`
raises `json.JSONDecodeError`), or hold a JSON array of string-keyed
string-valued objects — the only JSON shape the program ever writes.
Both exceptions are caught by `load_library`. -/
inductive FileState where
  | missing
  | corrupt
  | json (recs : List RecordMap)
deriving DecidableEq, Repr

/-- `load_library` (`library.py` lines 11-22): a missing file or a JSON
decode failure yields `[]`; otherwise every element is passed through
`Book.from_dict`, whose exceptions propagate to the caller. -/
def load_library (fs : FileState) : Except Err (List Book) :=
  match fs with
  | .missing => Except.ok []
  | .corrupt => Except.ok []
  | .json recs => recs.mapM Book.from_dict

/-- `save_library` (`library.py` lines 25-34): overwrites the file with
the JSON array of `to_dict` records (the console message is ignored). -/
def save_library (books : List Book) : FileState :=
  FileState.json (books.map Book.to_dict)

/-- `max((book.id for book in books), default=0)` (`library.py` line
48): the greatest id, or `0` when the list is empty. -/
def maxId (books : List Book) : Int :=
  match books.map Book.id with
  | [] => 0
  | i :: is => is.foldl max i

/-- The default status a fresh `Book` gets (`books.py` line 27). -/
def defaultStatus : String := "в наличии"

/-- The two admissible status strings (`library.py` line 111). -/
def statusEnum : List String := ["в наличии", "выдана"]

/-- `add_book` (`library.py` lines 37-52): load, compute the next id,
append a fresh `Book` (status defaulted), save, and return the book.
The pair is the Python return value and the file state after the call. -/
def add_book (title author : String) (year : Int) (fs : FileState) :
    Except Err Book × FileState :=
  match load_library fs with
  | .error e => (.error e, fs)
  | .ok books =>
    let new_book : Book :=
      { id := maxId books + 1, title := title, author := author,
        year := year, status := defaultStatus }
    (.ok new_book, save_library (books ++ [new_book]))

/-- `remove_book` (`library.py` lines 55-68): load, drop every book with
the given id; if nothing was dropped return `False` without saving,
otherwise save the filtered list and return `True`. -/
def remove_book (book_id : Int) (fs : FileState) :
    Except Err Bool × FileState :=
  match load_library fs with
  | .error e => (.error e, fs)
  | .ok books =>
    let filtered_books := books.filter (fun b => b.id ≠ book_id)
    if filtered_books.length = books.length then (.ok false, fs)
    else (.ok true, save_library filtered_books)

/-- Python `s.lower()`, modelled character-wise. -/
def pyLower (s : String) : String := ⟨s.data.map Char.toLower⟩

/-- Leading-match test: does `hay` start with `needle`? -/
def startsWith : List Char → List Char → Bool
  | [], _ => true
  | _ :: _, [] => false
  | c :: cs, d :: ds => c = d && startsWith cs ds

/-- Contiguous substring test on character lists. -/
def subOf (needle : List Char) : List Char → Bool
  | [] => needle.isEmpty
  | d :: ds => startsWith needle (d :: ds) || subOf needle ds

/-- Python `needle in hay` on strings: contiguous substring test. -/
def pyInStr (needle hay : String) : Bool := subOf needle.data hay.data

/-- Truthiness of an `Optional[str]` argument: `None` and `""` are
falsy. -/
def truthyStr : Option String → Bool
  | none => false
  | some s => s ≠ ""

/-- Truthiness of an `Optional[int]` argument: `None` and `0` are
falsy. -/
def truthyInt : Option Int → Bool
  | none => false
  | some n => n ≠ 0

/-- `search_books` (`library.py` lines 71-89): load, then narrow the
result list by each of the three filters whose argument is truthy:
case-insensitive substring on title and author, equality on year. -/
def search_books (fs : FileState) (title author : Option String)
    (year : Option Int) : Except Err (List Book) :=
  match load_library fs with
  | .error e => .error e
  | .ok books =>
    let results := books
    let results := if truthyStr title then
        results.filter (fun b => pyInStr (pyLower (title.getD "")) (pyLower b.title))
      else results
    let results := if truthyStr author then
        results.filter (fun b => pyInStr (pyLower (author.getD "")) (pyLower b.author))
      else results
    let results := if truthyInt year then
        results.filter (fun b => b.year = year.getD 0)
      else results
    .ok results

/-- `list_books` (`library.py` lines 92-99): just `load_library`. -/
def list_books (fs : FileState) : Except Err (List Book) :=
  load_library fs

/-- The `for` loop of `update_book_status` (`library.py` lines
114-118): set the status of the first book whose id matches and report
the whole updated list; `none` when no id matches. -/
def updateFirst (books : List Book) (book_id : Int) (status : String) :
    Option (List Book) :=
  match books with
  | [] => none
  | b :: bs =>
    if b.id = book_id then some ({ b with status := status } :: bs)
    else (updateFirst bs book_id status).map (b :: ·)

/-- `update_book_status` (`library.py` lines 102-119): reject a status
outside `statusEnum` with `ValueError` before touching the file; then
load, mutate the first match and save (returning `True`), or return
`False` without saving when no id matches. -/
def update_book_status (book_id : Int) (status : String) (fs : FileState) :
    Except Err Bool × FileState :=
  if status ∈ statusEnum then
    match load_library fs with
    | .error e => (.error e, fs)
    | .ok books =>
      match updateFirst books book_id status with
      | some books' => (.ok true, save_library books')
      | none => (.ok false, fs)
  else (.error Err.valueError, fs)

/-! ### Round-trip of the integer print/parse pair -/

theorem data_mk (l : List Char) : (⟨l⟩ : String).data = l := rfl

theorem digit?_digitChar (d : Nat) (h : d < 10) : digit? (digitChar d) = some d := by
  interval_cases d <;> decide

theorem digitChar_not_sign (d : Nat) (h : d < 10) :
    digitChar d ≠ '-' ∧ digitChar d ≠ '+' := by
  interval_cases d <;> decide

theorem natDigits_ne_nil (n : Nat) : natDigits n ≠ [] := by
  rw [natDigits]
  by_cases h : n < 10 <;> simp [h]

theorem natDigits_mem (n : Nat) : ∀ c ∈ natDigits n, ∃ d, d < 10 ∧ c = digitChar d := by
  induction n using Nat.strong_induction_on with
  | _ n ih =>
    rw [natDigits]
    by_cases h : n < 10
    · simp only [dif_pos h, List.mem_singleton]
      exact fun c hc => ⟨n, h, hc⟩
    · simp only [dif_neg h, List.mem_append, List.mem_singleton]
      rintro c (hc | hc)
      · exact ih (n / 10) (Nat.div_lt_self (by omega) (by omega)) c hc
      · exact ⟨n % 10, Nat.mod_lt _ (by omega), hc⟩

theorem parseNatAux_append (ds : List Char) :
    ∀ (es : List Char) (acc m : Nat), parseNatAux ds acc = some m →
      parseNatAux (ds ++ es) acc = parseNatAux es m := by
  induction ds with
  | nil =>
    intro es acc m h
    simp only [parseNatAux] at h
    cases h
    simp
  | cons c cs ih =>
    intro es acc m h
    cases hd : digit? c with
    | none => simp [parseNatAux, hd] at h
    | some d =>
      simp only [parseNatAux, hd] at h
      simp only [List.cons_append, parseNatAux, hd]
      exact ih es _ m h

theorem parseNatAux_natDigits (n : Nat) :
    ∀ acc, parseNatAux (natDigits n) acc =
      some (acc * 10 ^ (natDigits n).length + n) := by
  induction n using Nat.strong_induction_on with
  | _ n ih =>
    intro acc
    rw [natDigits]
    by_cases h : n < 10
    · simp only [dif_pos h, parseNatAux, digit?_digitChar n h, List.length_singleton,
        pow_one]
      exact congrArg some (by omega)
    · simp only [dif_neg h]
      have ihA := ih (n / 10) (Nat.div_lt_self (by omega) (by omega)) acc
      rw [parseNatAux_append _ _ _ _ ihA]
      have hd := digit?_digitChar (n % 10) (Nat.mod_lt _ (by omega))
      simp only [parseNatAux, hd, List.length_append, List.length_singleton]
      set q := n / 10 with hq
      set r := n % 10 with hr
      rw [show n = 10 * q + r by omega, pow_succ]
      ring_nf

theorem parseNat?_natDigits (n : Nat) : parseNat? (natDigits n) = some n := by
  cases hnd : natDigits n with
  | nil => exact absurd hnd (natDigits_ne_nil n)
  | cons c cs =>
    simp only [parseNat?]
    rw [← hnd, parseNatAux_natDigits n 0]
    simp

theorem pyInt?_intStr (i : Int) : pyInt? (intStr i) = some i := by
  rw [intStr]
  by_cases hi : i < 0
  · rw [if_pos hi]
    show pyIntChars? ('-' :: natDigits i.natAbs) = some i
    simp only [pyIntChars?, if_pos rfl]
    rw [parseNat?_natDigits]
    simp only [Option.map_some']
    exact congrArg some (by rw [Int.ofNat_eq_natCast]; omega)
  · rw [if_neg hi]
    show pyIntChars? (natDigits i.toNat) = some i
    cases hnd : natDigits i.toNat with
    | nil => exact absurd hnd (natDigits_ne_nil _)
    | cons c cs =>
      obtain ⟨d, hd10, rfl⟩ := natDigits_mem _ c (hnd ▸ List.mem_cons_self c cs)
      obtain ⟨hm, hp⟩ := digitChar_not_sign d hd10
      simp only [pyIntChars?, if_neg hm, if_neg hp]
      rw [← hnd, parseNat?_natDigits]
      simp only [Option.map_some']
      exact congrArg some (by rw [Int.ofNat_eq_natCast]; omega)

theorem from_dict_to_dict (b : Book) :
    Book.from_dict (Book.to_dict b) = Except.ok b := by
  simp [Book.from_dict, Book.to_dict, getKey, pyIntE, pyInt?_intStr,
    List.lookup, bind, Except.bind, pure, Except.pure]

/-- C1: for every `Book` `b` (integer `id` and `year`, string `title`,
`author`, `status`), building its record with `to_dict` and parsing it
back with `from_dict` yields a `Book` equal to `b` in every field. -/
theorem c1_from_dict_to_dict_roundtrip (b : Book) :
    Book.from_dict (Book.to_dict b) = Except.ok b :=
  from_dict_to_dict b

theorem load_save (books : List Book) :
    load_library (save_library books) = Except.ok books := by
  simp only [load_library, save_library]
  rw [← List.mapM'_eq_mapM]
  induction books with
  | nil => rfl
  | cons b bs ih =>
    simp [List.mapM', from_dict_to_dict, ih, bind, Except.bind, pure, Except.pure]

/-- C9: saving the collection that `load` yields and loading again
yields that same collection (in the same order). -/
theorem c9_save_load_idempotent (fs : FileState) (books : List Book)
    (h : load_library fs = Except.ok books) :
    load_library (save_library books) = load_library fs := by
  rw [h]
  exact load_save books

theorem c9_witness :
    load_library FileState.missing = Except.ok [] ∧
    load_library (save_library []) = load_library FileState.missing :=
  ⟨rfl, c9_save_load_idempotent FileState.missing [] rfl⟩

/-- C6: `load` yields the empty collection, surfacing no error, on a
missing file and on content that fails JSON parsing. -/
theorem c6_missing_or_corrupt_loads_empty (fs : FileState)
    (h : fs = FileState.missing ∨ fs = FileState.corrupt) :
    load_library fs = Except.ok [] := by
  rcases h with rfl | rfl <;> rfl

theorem c6_witness :
    load_library FileState.corrupt = Except.ok [] :=
  c6_missing_or_corrupt_loads_empty FileState.corrupt (Or.inr rfl)

/-! ### Adding books (C3) -/

theorem le_foldl_max (l : List Int) : ∀ a : Int, a ≤ l.foldl max a := by
  induction l with
  | nil => simp
  | cons c l ih => exact fun a => le_trans (le_max_left a c) (ih (max a c))

theorem mem_le_foldl_max (l : List Int) : ∀ (a x : Int), x ∈ l → x ≤ l.foldl max a := by
  induction l with
  | nil => simp
  | cons c l ih =>
    intro a x hx
    rcases List.mem_cons.mp hx with rfl | hx
    · exact le_trans (le_max_right a x) (le_foldl_max l _)
    · exact ih _ x hx

theorem id_le_maxId (books : List Book) (b : Book) (hb : b ∈ books) :
    b.id ≤ maxId books := by
  unfold maxId
  cases hm : books.map Book.id with
  | nil => simp [List.map_eq_nil_iff.mp hm] at hb
  | cons i is =>
    have hmem : b.id ∈ i :: is := hm ▸ List.mem_map_of_mem Book.id hb
    rcases List.mem_cons.mp hmem with heq | hmem
    · exact heq ▸ le_foldl_max is i
    · exact mem_le_foldl_max is i b.id hmem

theorem add_book_eq (t a : String) (y : Int) (fs : FileState) (books : List Book)
    (h : load_library fs = Except.ok books) :
    add_book t a y fs =
      (Except.ok { id := maxId books + 1, title := t, author := a, year := y,
                   status := defaultStatus },
       save_library (books ++ [{ id := maxId books + 1, title := t, author := a,
                                 year := y, status := defaultStatus }])) := by
  simp [add_book, h]

/-- C3: `add` assigns the new book the id `max(existing ids, default
0) + 1`, appends it, saves, and returns it; on an empty library the id
is 1, on a library with ids `[1, 3]` the id is 4. -/
theorem c3_add_assigns_next_id (t a : String) (y : Int) (fs : FileState)
    (books : List Book) (h : load_library fs = Except.ok books) :
    (add_book t a y fs =
      (Except.ok { id := maxId books + 1, title := t, author := a, year := y,
                   status := defaultStatus },
       save_library (books ++ [{ id := maxId books + 1, title := t, author := a,
                                 year := y, status := defaultStatus }]))) ∧
    (books = [] →
      (add_book t a y fs).1 =
        Except.ok { id := 1, title := t, author := a, year := y,
                    status := defaultStatus }) ∧
    (books.map Book.id = [1, 3] →
      (add_book t a y fs).1 =
        Except.ok { id := 4, title := t, author := a, year := y,
                    status := defaultStatus }) := by
  have hres := add_book_eq t a y fs books h
  refine ⟨hres, ?_, ?_⟩
  · rintro rfl
    rw [hres]
    norm_num [maxId]
  · intro hmap
    have hmax : maxId books = 3 := by
      unfold maxId
      rw [hmap]
      rfl
    rw [hres, hmax]
    norm_num

theorem c3_witness :
    load_library FileState.missing = Except.ok [] ∧
    (add_book "T" "A" 2001 FileState.missing).1 =
      Except.ok { id := 1, title := "T", author := "A", year := 2001,
                  status := defaultStatus } :=
  ⟨rfl, (c3_add_assigns_next_id "T" "A" 2001 FileState.missing [] rfl).2.1 rfl⟩

/-! ### Removing books (C4) -/

/-- C4: `remove` returns `False` and leaves the file unchanged (no save)
when no stored book has the id; otherwise it saves the collection with
every book of that id filtered out and returns `True`. -/
theorem c4_remove_by_id (book_id : Int) (fs : FileState) (books : List Book)
    (h : load_library fs = Except.ok books) :
    ((∀ b ∈ books, b.id ≠ book_id) → remove_book book_id fs = (Except.ok false, fs)) ∧
    ((∃ b ∈ books, b.id = book_id) →
      remove_book book_id fs =
        (Except.ok true, save_library (books.filter (fun b => b.id ≠ book_id)))) := by
  constructor
  · intro hnone
    have hfil : books.filter (fun b => decide (b.id ≠ book_id)) = books :=
      List.filter_eq_self.mpr (fun b hb => decide_eq_true (hnone b hb))
    simp [remove_book, h, hfil]
    exact fun x hx => hnone x hx
  · intro hsome
    have hlt : (books.filter (fun b => decide (b.id ≠ book_id))).length < books.length := by
      obtain ⟨b, hb, hid⟩ := hsome
      exact List.length_filter_lt_length_iff_exists.mpr ⟨b, hb, by simp [hid]⟩
    simp [remove_book, h, Nat.ne_of_lt hlt]
    exact hsome

/-- A sample stored book used by concrete witnesses. -/
def bookW : Book :=
  { id := 2, title := "T", author := "A", year := 2001, status := "в наличии" }

theorem c4_witness :
    load_library (save_library [bookW]) = Except.ok [bookW] ∧
    remove_book 5 (save_library [bookW]) = (Except.ok false, save_library [bookW]) :=
  ⟨load_save _,
   (c4_remove_by_id 5 (save_library [bookW]) [bookW] (load_save _)).1 (by decide)⟩

/-! ### Updating a book's status (C2) -/

theorem updateFirst_none (books : List Book) (bid : Int) (st : String)
    (h : ∀ b ∈ books, b.id ≠ bid) : updateFirst books bid st = none := by
  induction books with
  | nil => rfl
  | cons b bs ih =>
    simp only [updateFirst, if_neg (h b (List.mem_cons_self b bs))]
    rw [ih (fun x hx => h x (List.mem_cons_of_mem b hx))]
    rfl

theorem updateFirst_split (bid : Int) (st : String) :
    ∀ (pre : List Book) (b : Book) (post : List Book),
      (∀ x ∈ pre, x.id ≠ bid) → b.id = bid →
      updateFirst (pre ++ b :: post) bid st =
        some (pre ++ { b with status := st } :: post) := by
  intro pre
  induction pre with
  | nil =>
    intro b post _ hb
    simp [updateFirst, hb]
  | cons x xs ih =>
    intro b post hpre hb
    simp only [List.cons_append, updateFirst,
      if_neg (hpre x (List.mem_cons_self x xs)), List.append_eq]
    rw [ih b post (fun z hz => hpre z (List.mem_cons_of_mem x hz)) hb]
    rfl

/-- C2: `update_status` rejects a status outside the two-value enum with
an error, file untouched; with a valid status it returns `True` and
saves the list with the first id match restatused, or returns `False`
without saving when no id matches. -/
theorem c2_update_status (book_id : Int) (status : String) (fs : FileState) :
    (status ∉ statusEnum →
      update_book_status book_id status fs = (Except.error Err.valueError, fs)) ∧
    (∀ books, load_library fs = Except.ok books → status ∈ statusEnum →
      ((∀ b ∈ books, b.id ≠ book_id) →
        update_book_status book_id status fs = (Except.ok false, fs)) ∧
      (∀ pre b post, books = pre ++ b :: post → (∀ x ∈ pre, x.id ≠ book_id) →
        b.id = book_id →
        update_book_status book_id status fs =
          (Except.ok true,
           save_library (pre ++ { b with status := status } :: post)))) := by
  constructor
  · intro hst
    simp [update_book_status, hst]
  · intro books h hst
    constructor
    · intro hnone
      simp [update_book_status, hst, h,
        updateFirst_none books book_id status hnone]
    · intro pre b post hsplit hpre hb
      subst hsplit
      simp [update_book_status, hst, h,
        updateFirst_split book_id status pre b post hpre hb]

theorem c2_witness :
    ("loaned" ∉ statusEnum ∧
      update_book_status 2 "loaned" (save_library [bookW]) =
        (Except.error Err.valueError, save_library [bookW])) ∧
    (load_library (save_library [bookW]) = Except.ok [bookW] ∧
      update_book_status 5 "выдана" (save_library [bookW]) =
        (Except.ok false, save_library [bookW]) ∧
      update_book_status 2 "выдана" (save_library [bookW]) =
        (Except.ok true, save_library [{ bookW with status := "выдана" }])) :=
  ⟨⟨by decide,
    (c2_update_status 2 "loaned" (save_library [bookW])).1 (by decide)⟩,
   ⟨load_save [bookW],
    ((c2_update_status 5 "выдана" (save_library [bookW])).2 [bookW]
        (load_save [bookW]) (by decide)).1 (by decide),
    by
      have := ((c2_update_status 2 "выдана" (save_library [bookW])).2 [bookW]
        (load_save [bookW]) (by decide)).2 [] bookW [] rfl (by decide) (by decide)
      simpa using this⟩⟩

/-! ### Searching (C5, C10)

`search_books` guards each filter with Python truthiness, so a `None`
argument and a falsy one (`""`, `0`) both skip the filter.  The three
per-argument tests below package the guarded filters pointwise. -/

def titleTest (title : Option String) (b : Book) : Bool :=
  if truthyStr title then pyInStr (pyLower (title.getD "")) (pyLower b.title)
  else true

def authorTest (author : Option String) (b : Book) : Bool :=
  if truthyStr author then pyInStr (pyLower (author.getD "")) (pyLower b.author)
  else true

def yearTest (year : Option Int) (b : Book) : Bool :=
  if truthyInt year then decide (b.year = year.getD 0) else true

/-- The predicate C5's sentence describes, written from the spec's
words: case-insensitive substring match on title and author when those
arguments are provided, exact equality on year when it is provided. -/
def specMatches (title author : Option String) (year : Option Int) (b : Book) : Bool :=
  (match title with
   | some t => pyInStr (pyLower t) (pyLower b.title)
   | none => true) &&
  (match author with
   | some a => pyInStr (pyLower a) (pyLower b.author)
   | none => true) &&
  (match year with
   | some y => decide (b.year = y)
   | none => true)

/-- The amended C5 predicate: as `specMatches`, except that a provided
year of `0` imposes no constraint (the code treats it as not provided). -/
def specMatchesAmended (title author : Option String) (year : Option Int)
    (b : Book) : Bool :=
  (match title with
   | some t => pyInStr (pyLower t) (pyLower b.title)
   | none => true) &&
  (match author with
   | some a => pyInStr (pyLower a) (pyLower b.author)
   | none => true) &&
  (match year with
   | some y => if y = 0 then true else decide (b.year = y)
   | none => true)

theorem subOf_nil (l : List Char) : subOf [] l = true := by
  cases l <;> rfl

theorem pyInStr_empty (s : String) : pyInStr "" s = true := by
  unfold pyInStr
  exact subOf_nil s.data

theorem pyLower_empty : pyLower "" = "" := rfl

theorem filter_three (p q r : Book → Bool) (l : List Book) :
    ((l.filter p).filter q).filter r = l.filter (fun b => p b && q b && r b) := by
  rw [List.filter_filter, List.filter_filter]
  exact List.filter_congr (fun b _ => by cases p b <;> cases q b <;> cases r b <;> rfl)

theorem cond_eq_filter_title (t : Option String) (l : List Book) :
    (if truthyStr t then
        l.filter (fun b => pyInStr (pyLower (t.getD "")) (pyLower b.title))
      else l) = l.filter (titleTest t) := by
  by_cases ht : truthyStr t
  · rw [if_pos ht]
    exact List.filter_congr (fun b _ => by simp [titleTest, ht])
  · rw [if_neg ht]
    exact (List.filter_eq_self.mpr (fun b _ => by simp [titleTest, ht])).symm

theorem cond_eq_filter_author (a : Option String) (l : List Book) :
    (if truthyStr a then
        l.filter (fun b => pyInStr (pyLower (a.getD "")) (pyLower b.author))
      else l) = l.filter (authorTest a) := by
  by_cases ha : truthyStr a
  · rw [if_pos ha]
    exact List.filter_congr (fun b _ => by simp [authorTest, ha])
  · rw [if_neg ha]
    exact (List.filter_eq_self.mpr (fun b _ => by simp [authorTest, ha])).symm

theorem cond_eq_filter_year (y : Option Int) (l : List Book) :
    (if truthyInt y then l.filter (fun b => b.year = y.getD 0) else l)
      = l.filter (yearTest y) := by
  by_cases hy : truthyInt y
  · rw [if_pos hy]
    exact List.filter_congr (fun b _ => by simp [yearTest, hy])
  · rw [if_neg hy]
    exact (List.filter_eq_self.mpr (fun b _ => by simp [yearTest, hy])).symm

theorem search_books_filter (fs : FileState) (books : List Book)
    (h : load_library fs = Except.ok books) (t a : Option String) (y : Option Int) :
    search_books fs t a y =
      Except.ok (books.filter (fun b => titleTest t b && authorTest a b && yearTest y b)) := by
  simp only [search_books, h]
  rw [cond_eq_filter_title, cond_eq_filter_author, cond_eq_filter_year, filter_three]

theorem titleTest_eq (title : Option String) (b : Book) :
    titleTest title b =
      (match title with
       | some t => pyInStr (pyLower t) (pyLower b.title)
       | none => true) := by
  cases title with
  | none => rfl
  | some t =>
    by_cases ht : t = ""
    · subst ht
      simp [titleTest, truthyStr, pyLower_empty, pyInStr_empty]
    · simp [titleTest, truthyStr, ht]

theorem authorTest_eq (author : Option String) (b : Book) :
    authorTest author b =
      (match author with
       | some a => pyInStr (pyLower a) (pyLower b.author)
       | none => true) := by
  cases author with
  | none => rfl
  | some a =>
    by_cases ha : a = ""
    · subst ha
      simp [authorTest, truthyStr, pyLower_empty, pyInStr_empty]
    · simp [authorTest, truthyStr, ha]

theorem yearTest_eq (year : Option Int) (b : Book) :
    yearTest year b =
      (match year with
       | some y => if y = 0 then true else decide (b.year = y)
       | none => true) := by
  cases year with
  | none => rfl
  | some y =>
    by_cases hy : y = 0
    · subst hy
      simp [yearTest, truthyInt]
    · simp [yearTest, truthyInt, hy]

theorem tests_eq_amended (t a : Option String) (y : Option Int) (b : Book) :
    (titleTest t b && authorTest a b && yearTest y b) =
      specMatchesAmended t a y b := by
  unfold specMatchesAmended
  rw [titleTest_eq, authorTest_eq, yearTest_eq]

/-- C5 counterexample: with `year = 0` provided, the code skips the year
filter (`0` is falsy), so the result is not the set of books whose year
equals the provided filter value. -/
theorem c5_counterexample :
    ¬ (search_books (save_library [bookW]) none none (some 0) =
        Except.ok ([bookW].filter (specMatches none none (some 0)))) := by
  rw [search_books_filter (save_library [bookW]) [bookW] (load_save [bookW])
    none none (some 0)]
  simp [titleTest, authorTest, yearTest, truthyStr, truthyInt, specMatches,
    List.filter, bookW]

/-- C5 (amended): `search` returns exactly the books satisfying all
provided filters conjointly — case-insensitive substring on title and
author when provided, exact equality on year when it is provided and
nonzero (a provided year of `0` imposes no filter). -/
theorem c5_search_filters_amended (fs : FileState) (books : List Book)
    (h : load_library fs = Except.ok books) (t a : Option String) (y : Option Int) :
    search_books fs t a y =
      Except.ok (books.filter (specMatchesAmended t a y)) := by
  rw [search_books_filter fs books h t a y]
  exact congrArg Except.ok
    (List.filter_congr (fun b _ => tests_eq_amended t a y b))

theorem c5_witness :
    load_library (save_library [bookW]) = Except.ok [bookW] ∧
    search_books (save_library [bookW]) none none (some 2001) =
      Except.ok ([bookW].filter (specMatchesAmended none none (some 2001))) :=
  ⟨load_save [bookW],
   c5_search_filters_amended (save_library [bookW]) [bookW] (load_save [bookW])
     none none (some 2001)⟩

/-- C10: an empty-string title, empty-string author, or year `0` is
treated as not provided — the corresponding filter is skipped — and
searching with all three falsy returns every stored book. -/
theorem c10_falsy_filters_skipped (fs : FileState) (books : List Book)
    (h : load_library fs = Except.ok books) :
    (∀ a y, search_books fs (some "") a y = search_books fs none a y) ∧
    (∀ t y, search_books fs t (some "") y = search_books fs t none y) ∧
    (∀ t a, search_books fs t a (some 0) = search_books fs t a none) ∧
    search_books fs (some "") (some "") (some 0) = Except.ok books := by
  refine ⟨fun a y => rfl, fun t y => rfl, fun t a => rfl, ?_⟩
  rw [search_books_filter fs books h (some "") (some "") (some 0)]
  simp [titleTest, authorTest, yearTest, truthyStr, truthyInt]

theorem c10_witness :
    load_library (save_library [bookW]) = Except.ok [bookW] ∧
    search_books (save_library [bookW]) (some "") (some "") (some 0) =
      Except.ok [bookW] :=
  ⟨load_save [bookW],
   (c10_falsy_filters_skipped (save_library [bookW]) [bookW]
     (load_save [bookW])).2.2.2⟩

/-! ### Record validation (C7) -/

/-- The five keys `from_dict` reads. -/
def requiredKeys : List String := ["id", "title", "author", "year", "status"]

/-- The failure condition C7 describes: a required key is missing, or
the `id`/`year` value is not integer-parseable. -/
def recordBad (d : RecordMap) : Prop :=
  (∃ k ∈ requiredKeys, d.lookup k = none) ∨
  (∃ v, d.lookup "id" = some v ∧ pyInt? v = none) ∨
  (∃ v, d.lookup "year" = some v ∧ pyInt? v = none)

/-- C7: `from_dict` fails (with the KeyError/ValueError pair the spec
groups as ValidationError) exactly when a required key is missing or the
`id`/`year` value is not integer-parseable; otherwise it builds the Book
whose fields are the looked-up values, with `id` and `year` parsed. -/
theorem c7_from_dict_validation (d : RecordMap) :
    ((∃ e, Book.from_dict d = Except.error e) ↔ recordBad d) ∧
    (∀ vi vt va vy vs i y,
      d.lookup "id" = some vi → pyInt? vi = some i →
      d.lookup "title" = some vt → d.lookup "author" = some va →
      d.lookup "year" = some vy → pyInt? vy = some y →
      d.lookup "status" = some vs →
      Book.from_dict d =
        Except.ok { id := i, title := vt, author := va, year := y, status := vs }) := by
  constructor
  · cases h1 : d.lookup "id" with
    | none =>
      refine iff_of_true ⟨Err.keyError, ?_⟩ (Or.inl ⟨"id", by simp [requiredKeys], h1⟩)
      simp [Book.from_dict, getKey, h1, bind, Except.bind]
    | some vi =>
      cases hp1 : pyInt? vi with
      | none =>
        refine iff_of_true ⟨Err.valueError, ?_⟩ (Or.inr (Or.inl ⟨vi, h1, hp1⟩))
        simp [Book.from_dict, getKey, pyIntE, h1, hp1, bind, Except.bind]
      | some i =>
        cases h2 : d.lookup "title" with
        | none =>
          refine iff_of_true ⟨Err.keyError, ?_⟩
            (Or.inl ⟨"title", by simp [requiredKeys], h2⟩)
          simp [Book.from_dict, getKey, pyIntE, h1, hp1, h2, bind, Except.bind]
        | some vt =>
          cases h3 : d.lookup "author" with
          | none =>
            refine iff_of_true ⟨Err.keyError, ?_⟩
              (Or.inl ⟨"author", by simp [requiredKeys], h3⟩)
            simp [Book.from_dict, getKey, pyIntE, h1, hp1, h2, h3, bind, Except.bind]
          | some va =>
            cases h4 : d.lookup "year" with
            | none =>
              refine iff_of_true ⟨Err.keyError, ?_⟩
                (Or.inl ⟨"year", by simp [requiredKeys], h4⟩)
              simp [Book.from_dict, getKey, pyIntE, h1, hp1, h2, h3, h4,
                bind, Except.bind]
            | some vy =>
              cases hp2 : pyInt? vy with
              | none =>
                refine iff_of_true ⟨Err.valueError, ?_⟩
                  (Or.inr (Or.inr ⟨vy, h4, hp2⟩))
                simp [Book.from_dict, getKey, pyIntE, h1, hp1, h2, h3, h4, hp2,
                  bind, Except.bind]
              | some y =>
                cases h5 : d.lookup "status" with
                | none =>
                  refine iff_of_true ⟨Err.keyError, ?_⟩
                    (Or.inl ⟨"status", by simp [requiredKeys], h5⟩)
                  simp [Book.from_dict, getKey, pyIntE, h1, hp1, h2, h3, h4, hp2,
                    h5, bind, Except.bind]
                | some vs =>
                  have hok : Book.from_dict d = Except.ok
                      { id := i, title := vt, author := va, year := y,
                        status := vs } := by
                    simp [Book.from_dict, getKey, pyIntE, h1, hp1, h2, h3, h4,
                      hp2, h5, bind, Except.bind, pure, Except.pure]
                  refine iff_of_false ?_ ?_
                  · rintro ⟨e, he⟩
                    rw [hok] at he
                    simp at he
                  · rintro (⟨k, hk, hnone⟩ | ⟨v, hv, hpv⟩ | ⟨v, hv, hpv⟩)
                    · simp only [requiredKeys, List.mem_cons,
                        List.mem_singleton, List.not_mem_nil, or_false] at hk
                      rcases hk with rfl | rfl | rfl | rfl | rfl <;> simp_all
                    · rw [h1] at hv
                      cases hv
                      rw [hp1] at hpv
                      cases hpv
                    · rw [h4] at hv
                      cases hv
                      rw [hp2] at hpv
                      cases hpv
  · intro vi vt va vy vs i y h1 hp1 h2 h3 h4 hp2 h5
    simp [Book.from_dict, getKey, pyIntE, h1, hp1, h2, h3, h4, hp2, h5,
      bind, Except.bind, pure, Except.pure]

/-- A concrete well-formed record for the C7 witness. -/
def recW : RecordMap :=
  [("id", "2"), ("title", "T"), ("author", "A"), ("year", "2001"),
   ("status", "s")]

theorem c7_witness :
    ((∃ e, Book.from_dict [] = Except.error e) ↔ recordBad []) ∧
    Book.from_dict recW =
      Except.ok { id := 2, title := "T", author := "A", year := 2001,
                  status := "s" } :=
  ⟨(c7_from_dict_validation []).1,
   (c7_from_dict_validation recW).2 "2" "T" "A" "2001" "s" 2 2001
     (by decide) (by decide) (by decide) (by decide) (by decide) (by decide)
     (by decide)⟩

/-! ### The stored-collection invariant (C8) -/

theorem updateFirst_map_id (bid : Int) (st : String) :
    ∀ (bs bs' : List Book), updateFirst bs bid st = some bs' →
      bs'.map Book.id = bs.map Book.id := by
  intro bs
  induction bs with
  | nil => intro bs' h; simp [updateFirst] at h
  | cons b tl ih =>
    intro bs' h
    by_cases hb : b.id = bid
    · simp only [updateFirst, if_pos hb, Option.some_inj] at h
      subst h
      simp
    · simp only [updateFirst, if_neg hb, Option.map_eq_some'] at h
      obtain ⟨tl', htl, rfl⟩ := h
      simp [ih tl' htl]

theorem updateFirst_status_mem (bid : Int) (st : String) :
    ∀ (bs bs' : List Book), updateFirst bs bid st = some bs' →
      ∀ b' ∈ bs', b'.status = st ∨ b' ∈ bs := by
  intro bs
  induction bs with
  | nil => intro bs' h; simp [updateFirst] at h
  | cons b tl ih =>
    intro bs' h
    by_cases hb : b.id = bid
    · simp only [updateFirst, if_pos hb, Option.some_inj] at h
      subst h
      rintro b' hb'
      rcases List.mem_cons.mp hb' with rfl | hmem
      · exact Or.inl rfl
      · exact Or.inr (List.mem_cons_of_mem b hmem)
    · simp only [updateFirst, if_neg hb, Option.map_eq_some'] at h
      obtain ⟨tl', htl, rfl⟩ := h
      rintro b' hb'
      rcases List.mem_cons.mp hb' with rfl | hmem
      · exact Or.inr (List.mem_cons_self b' tl)
      · rcases ih tl' htl b' hmem with hst | hmem'
        · exact Or.inl hst
        · exact Or.inr (List.mem_cons_of_mem b hmem')

/-- File states reachable from the empty library through `add_book`,
`remove_book` and `update_book_status`. -/
inductive Reachable : FileState → Prop where
  | init : Reachable FileState.missing
  | add {fs fs' : FileState} {t a : String} {y : Int} {r : Except Err Book} :
      Reachable fs → add_book t a y fs = (r, fs') → Reachable fs'
  | remove {fs fs' : FileState} {i : Int} {r : Except Err Bool} :
      Reachable fs → remove_book i fs = (r, fs') → Reachable fs'
  | update {fs fs' : FileState} {i : Int} {s : String} {r : Except Err Bool} :
      Reachable fs → update_book_status i s fs = (r, fs') → Reachable fs'

/-- C8: in every file state reachable from the empty library through
`add`, `remove` and `update_status`, the stored ids are pairwise
distinct and every stored status is one of the two enum values. -/
theorem c8_reachable_invariant (fs : FileState) (h : Reachable fs)
    (books : List Book) (hl : load_library fs = Except.ok books) :
    (books.map Book.id).Nodup ∧ ∀ b ∈ books, b.status ∈ statusEnum := by
  induction h generalizing books with
  | init =>
    cases hl
    simp
  | @add fs fs' t a y r _ heq ih =>
    cases hload : load_library fs with
    | error e =>
      simp only [add_book, hload] at heq
      obtain ⟨-, rfl⟩ := Prod.mk.injEq .. ▸ heq
      exact absurd (hload.symm.trans hl) (by simp)
    | ok bs =>
      rw [add_book_eq t a y fs bs hload] at heq
      injection heq with _ hfs
      subst hfs
      rw [load_save] at hl
      injection hl with hb
      subst hb
      obtain ⟨hnodup, hstat⟩ := ih bs hload
      constructor
      · have hfresh : (maxId bs + 1) ∉ bs.map Book.id := by
          intro hmem
          obtain ⟨b, hb, hid⟩ := List.mem_map.mp hmem
          have := id_le_maxId bs b hb
          omega
        simp only [List.map_append, List.map_cons, List.map_nil]
        rw [List.nodup_append]
        refine ⟨hnodup, List.nodup_singleton _, ?_⟩
        intro x hx hx1
        rcases List.mem_singleton.mp hx1 with rfl
        exact hfresh hx
      · intro b hb
        rcases List.mem_append.mp hb with hmem | hmem
        · exact hstat b hmem
        · rcases List.mem_singleton.mp hmem with rfl
          simp [statusEnum, defaultStatus]
  | @remove fs fs' i r _ heq ih =>
    cases hload : load_library fs with
    | error e =>
      simp only [remove_book, hload] at heq
      obtain ⟨-, rfl⟩ := Prod.mk.injEq .. ▸ heq
      exact absurd (hload.symm.trans hl) (by simp)
    | ok bs =>
      by_cases hlen :
          (bs.filter (fun b => decide (b.id ≠ i))).length = bs.length
      · simp only [remove_book, hload, hlen, if_pos rfl] at heq
        obtain ⟨-, rfl⟩ := Prod.mk.injEq .. ▸ heq
        exact ih books hl
      · simp only [remove_book, hload, if_neg hlen] at heq
        obtain ⟨-, rfl⟩ := Prod.mk.injEq .. ▸ heq
        rw [load_save] at hl
        injection hl with hb
        subst hb
        obtain ⟨hnodup, hstat⟩ := ih bs hload
        constructor
        · exact hnodup.sublist (List.Sublist.map Book.id (List.filter_sublist bs))
        · exact fun b hb => hstat b (List.mem_of_mem_filter hb)
  | @update fs fs' i s r _ heq ih =>
    by_cases hst : s ∈ statusEnum
    · cases hload : load_library fs with
      | error e =>
        simp only [update_book_status, hload, if_pos hst] at heq
        obtain ⟨-, rfl⟩ := Prod.mk.injEq .. ▸ heq
        exact absurd (hload.symm.trans hl) (by simp)
      | ok bs =>
        cases hupd : updateFirst bs i s with
        | none =>
          simp only [update_book_status, hload, if_pos hst, hupd] at heq
          obtain ⟨-, rfl⟩ := Prod.mk.injEq .. ▸ heq
          exact ih books hl
        | some bs' =>
          simp only [update_book_status, hload, if_pos hst, hupd] at heq
          obtain ⟨-, rfl⟩ := Prod.mk.injEq .. ▸ heq
          rw [load_save] at hl
          injection hl with hb
          subst hb
          obtain ⟨hnodup, hstat⟩ := ih bs hload
          constructor
          · rw [updateFirst_map_id i s bs bs' hupd]
            exact hnodup
          · intro b hb
            rcases updateFirst_status_mem i s bs bs' hupd b hb with hbs | hmem
            · rw [hbs]; exact hst
            · exact hstat b hmem
    · simp only [update_book_status, if_neg hst] at heq
      obtain ⟨-, rfl⟩ := Prod.mk.injEq .. ▸ heq
      exact ih books hl

/-- The book `add_book "T" "A" 2001` creates on an empty library. -/
def nbW : Book :=
  { id := maxId [] + 1, title := "T", author := "A", year := 2001,
    status := defaultStatus }

theorem c8_witness :
    (([nbW] : List Book).map Book.id).Nodup ∧
    ∀ b ∈ ([nbW] : List Book), b.status ∈ statusEnum :=
  c8_reachable_invariant _
    (Reachable.add Reachable.init
      (add_book_eq "T" "A" 2001 FileState.missing [] rfl))
    _ (load_save _)

end Library
